import Mathlib

/-!
Shallow embedding of the xraph/ledger billing engine.

The definitions below translate the Go source of the repository:
  - `types.Money`, `types.Entity` (src/unnamed/part_000, src/types/entity.go)
  - the plan / subscription / usage-event / entitlement / invoice models
    (src/plan/models.go, src/unnamed/part_009, src/meter/models.go,
     src/entitlement/models.go, src/unnamed/part_008)
  - the in-memory store (src/store/memory/store.go)
  - the engine operations Meter, Entitled, CreateSubscription,
    CancelSubscription, GenerateInvoice (src/ledger.go)
  - the plugin registry dispatch (src/unnamed/part_008)

Go `time.Time` is modelled as a calendar instant (year, month, day,
nanosecond of day) ordered lexicographically; adding a duration only
bumps the nanosecond field, which preserves ordering between instants
built this way.  Go panics are modelled as `Option`/dedicated
constructors, Go errors as `Except`/`Option`.  Go map collections are
modelled as lists holding the map's contents in one (arbitrary)
iteration order, since Go map iteration order is unspecified.
-/

namespace LedgerSpec

/-- Model of Go `time.Time`: a calendar instant.  The Go zero time is
January 1 of year 1, 00:00:00 (`GoTime.zeroTime`). -/
structure GoTime where
  year : Int
  month : Int
  day : Int
  nsec : Int
deriving DecidableEq, Repr

namespace GoTime

/-- The Go zero value `time.Time{}`: January 1, year 1, 00:00:00. -/
def zeroTime : GoTime := ⟨1, 1, 1, 0⟩

/-- Embeds `t.After(u)` from Go: `true` iff the instant `t` is strictly
later than `u` (lexicographic comparison of the calendar fields). -/
def after (t u : GoTime) : Bool :=
  decide (u.year < t.year) ||
    (u.year == t.year && (decide (u.month < t.month) ||
      (u.month == t.month && (decide (u.day < t.day) ||
        (u.day == t.day && decide (u.nsec < t.nsec))))))

/-- Embeds `t.Before(u)` from Go: `t` is strictly earlier than `u`. -/
def before (t u : GoTime) : Bool := after u t

/-- Embeds `t.Add(d)` for a duration of `d` nanoseconds (simplified:
the nanosecond field is not renormalised into days). -/
def addNsec (t : GoTime) (d : Int) : GoTime := { t with nsec := t.nsec + d }

/-- Embeds `t.AddDate(0, n, 0)` (simplified: the month field is not
renormalised into years). -/
def addMonths (t : GoTime) (n : Int) : GoTime := { t with month := t.month + n }

theorem after_irrefl (t : GoTime) : t.after t = false := by
  simp [after]

end GoTime

/-- Strict order on instants, stated independently of the code's
`GoTime.after`, following the spec's words "timestamp strictly greater
than the start of the period". -/
def specStrictlyLater (u t : GoTime) : Prop :=
  u.year < t.year ∨ (u.year = t.year ∧ (u.month < t.month ∨
    (u.month = t.month ∧ (u.day < t.day ∨ (u.day = t.day ∧ u.nsec < t.nsec)))))

instance (u t : GoTime) : Decidable (specStrictlyLater u t) := by
  unfold specStrictlyLater; infer_instance

theorem after_iff_specStrictlyLater (t u : GoTime) :
    t.after u = true ↔ specStrictlyLater u t := by
  simp [GoTime.after, specStrictlyLater]

/-- Embeds `types.Money` (src/unnamed/part_000): an amount in minor
units tagged with a lowercase currency code. -/
structure Money where
  amount : Int
  currency : String
deriving DecidableEq, Repr

namespace Money

/-- The Go zero value `types.Money{}`: amount 0, currency `""`. -/
def zeroValue : Money := ⟨0, ""⟩

/-- Embeds `types.Zero(currency)`. -/
def zero (currency : String) : Money := ⟨0, currency.toLower⟩

/-- Embeds `Money.IsPositive`. -/
def isPositive (m : Money) : Bool := decide (0 < m.amount)

/-- Embeds `Money.Add`; the Go method panics when the currencies
differ, modelled as `none`. -/
def add (m o : Money) : Option Money :=
  if m.currency = o.currency then some ⟨m.amount + o.amount, m.currency⟩ else none

/-- Embeds `Money.Subtract`; the Go method panics when the currencies
differ, modelled as `none`. -/
def subtract (m o : Money) : Option Money :=
  if m.currency = o.currency then some ⟨m.amount - o.amount, m.currency⟩ else none

end Money

/-- Embeds `plan.Period` (src/plan/models.go). -/
inductive Period where
  | monthly
  | yearly
  | none
deriving DecidableEq, Repr

/-- Embeds `getStartOfPeriod` (src/store/memory/store.go:533-542):
first instant of the current month, of the current year, or the Go
zero time. -/
def getStartOfPeriod (t : GoTime) : Period → GoTime
  | .monthly => ⟨t.year, t.month, 1, 0⟩
  | .yearly => ⟨t.year, 1, 1, 0⟩
  | .none => GoTime.zeroTime

/-- Embeds `plan.FeatureType`. -/
inductive FeatureType where
  | metered
  | boolean
  | seat
deriving DecidableEq, Repr

/-- Embeds `plan.Feature` (fields not used by the embedded operations
are omitted). -/
structure Feature where
  key : String
  name : String
  ftype : FeatureType
  limit : Int
  period : Period
  softLimit : Bool
deriving DecidableEq, Repr

/-- Embeds `plan.Pricing` (the tier list is not consulted by any
embedded operation and is omitted). -/
structure Pricing where
  baseAmount : Money
  billingPeriod : Period
deriving DecidableEq, Repr

/-- Embeds `plan.Plan` (fields not used by the embedded operations are
omitted). -/
structure Plan where
  id : String
  slug : String
  currency : String
  features : List Feature
  pricing : Option Pricing
  appID : String
deriving DecidableEq, Repr

/-- Embeds `Plan.FindFeature` (src/plan/models.go:85-92): first feature
with the given key. -/
def Plan.findFeature (p : Plan) (key : String) : Option Feature :=
  p.features.find? (fun f => f.key == key)

/-- Embeds `subscription.Status`. -/
inductive SubStatus where
  | active
  | trialing
  | pastDue
  | canceled
  | expired
  | paused
deriving DecidableEq, Repr

/-- Embeds `subscription.Subscription` (fields not used by the embedded
operations are omitted; `createdAt` comes from the embedded
`types.Entity`). -/
structure Subscription where
  id : String
  tenantID : String
  planID : String
  appID : String
  status : SubStatus
  currentPeriodStart : GoTime
  currentPeriodEnd : GoTime
  cancelAt : Option GoTime := Option.none
  canceledAt : Option GoTime := Option.none
  createdAt : GoTime := GoTime.zeroTime
deriving DecidableEq, Repr

/-- Embeds `meter.UsageEvent`. -/
structure UsageEvent where
  id : String
  tenantID : String
  appID : String
  featureKey : String
  quantity : Int
  timestamp : GoTime
  idempotencyKey : String := ""
deriving DecidableEq, Repr

/-- Embeds `entitlement.Result`; default field values are the Go zero
values, so a Go literal that sets only some fields is translated by a
structure instance that sets the same fields. -/
structure EntResult where
  allowed : Bool := false
  feature : String := ""
  used : Int := 0
  limit : Int := 0
  remaining : Int := 0
  softLimit : Bool := false
  reason : String := ""
deriving DecidableEq, Repr

/-- Embeds `invoice.Status` (src/unnamed/part_008). -/
inductive InvStatus where
  | draft
  | pending
  | paid
  | pastDue
  | voided
deriving DecidableEq, Repr

/-- Embeds `invoice.LineItemType`. -/
inductive LineItemType where
  | base
  | usage
  | overage
  | seat
  | discount
  | tax
deriving DecidableEq, Repr

/-- Embeds `invoice.LineItem`. -/
structure LineItem where
  id : String
  invoiceID : String
  featureKey : String := ""
  description : String
  quantity : Int
  unitAmount : Money
  amount : Money
  itemType : LineItemType
deriving DecidableEq, Repr

/-- Embeds `invoice.Invoice` (fields not used by the embedded
operations are omitted); the monetary fields default to the Go zero
value of `types.Money`, exactly as in the struct literal at
src/ledger.go:422-433 which leaves them unset. -/
structure Invoice where
  id : String
  tenantID : String
  subscriptionID : String
  status : InvStatus
  currency : String
  subtotal : Money := Money.zeroValue
  taxAmount : Money := Money.zeroValue
  discountAmount : Money := Money.zeroValue
  total : Money := Money.zeroValue
  lineItems : List LineItem := []
  periodStart : GoTime
  periodEnd : GoTime
  appID : String
deriving DecidableEq, Repr

/-- Sentinel errors from src/unnamed/part_007 used by the embedded
operations. -/
inductive LedgerError where
  | alreadyExists
  | invalidInput
  | planNotFound
  | subscriptionNotFound
  | noActiveSubscription
  | meterBufferFull
  | cacheMiss
  | invoiceNotFound
deriving DecidableEq, Repr

/-- Lookup in an association list, modelling a read of a Go map. -/
def getAssoc {α : Type} (l : List (String × α)) (k : String) : Option α :=
  (l.find? (fun kv => kv.1 == k)).map (fun kv => kv.2)

/-- Update of an association list, modelling a Go map assignment:
replaces the binding when the key is present, appends it otherwise. -/
def setAssoc {α : Type} : List (String × α) → String → α → List (String × α)
  | [], k, v => [(k, v)]
  | (k', v') :: rest, k, v =>
    if k' = k then (k, v) :: rest else (k', v') :: setAssoc rest k v

/-- Embeds the byte-slice prefix test at src/store/memory/store.go:337,
`len(key) >= len(prefix) && key[:len(prefix)] == prefix`, on the
character list of the strings. -/
def goHasPrefix (key pre : String) : Bool :=
  decide (pre.data.length ≤ key.data.length) &&
    key.data.take pre.data.length == pre.data

/-- Embeds the cache key `fmt.Sprintf("%s:%s:%s", tenantID, appID,
featureKey)` of src/store/memory/store.go. -/
def cacheKey (tenantID appID featureKey : String) : String :=
  tenantID ++ ":" ++ appID ++ ":" ++ featureKey

/-- Embeds the invalidation prefix `fmt.Sprintf("%s:%s:", tenantID,
appID)` of src/store/memory/store.go:335. -/
def cachePrefix (tenantID appID : String) : String :=
  tenantID ++ ":" ++ appID ++ ":"

/-- Embeds `memory.Store` (src/store/memory/store.go:19-40).  Each Go
map is modelled as a list of its contents in one (arbitrary) iteration
order; the usage-event slice is a list in insertion order. -/
structure MemStore where
  plans : List Plan := []
  subscriptions : List Subscription := []
  usageEvents : List UsageEvent := []
  entitlementCache : List (String × EntResult) := []
  cacheExpiry : List (String × GoTime) := []
  invoices : List (String × Invoice) := []
deriving Repr

namespace MemStore

/-- Embeds `Store.GetPlan`: map lookup by the plan id, `ErrPlanNotFound`
(modelled as `none`) when absent. -/
def getPlan (s : MemStore) (planID : String) : Option Plan :=
  s.plans.find? (fun p => p.id == planID)

/-- Embeds `Store.GetSubscription`: map lookup by the subscription id. -/
def getSubscription (s : MemStore) (subID : String) : Option Subscription :=
  s.subscriptions.find? (fun sub => sub.id == subID)

/-- Embeds `Store.GetActiveSubscription`
(src/store/memory/store.go:166-177): the code ranges over the
subscription map and returns the first entry for the pair whose status
is active or trialing; the list models the map's contents in one
possible iteration order, so this is the first match in that order.
`ErrNoActiveSubscription` is modelled as `none`. -/
def getActiveSubscription (s : MemStore) (tenantID appID : String) :
    Option Subscription :=
  s.subscriptions.find? (fun sub =>
    sub.tenantID == tenantID && sub.appID == appID &&
      (sub.status == SubStatus.active || sub.status == SubStatus.trialing))

/-- Embeds `Store.CreateSubscription`: fails with `ErrAlreadyExists`
when the id is already bound, else inserts. -/
def createSubscription (s : MemStore) (sub : Subscription) :
    Except LedgerError MemStore :=
  if s.subscriptions.any (fun x => x.id == sub.id) then
    .error .alreadyExists
  else
    .ok { s with subscriptions := s.subscriptions ++ [sub] }

/-- Embeds `Store.CancelSubscription` (src/store/memory/store.go:202-216):
sets `CancelAt` on the subscription and, when `now` is after `cancelAt`,
marks it canceled with `CanceledAt = now`. -/
def cancelSubscription (s : MemStore) (subID : String) (cancelAt now : GoTime) :
    Except LedgerError MemStore :=
  if s.subscriptions.any (fun x => x.id == subID) then
    .ok { s with subscriptions := s.subscriptions.map (fun sub =>
      if sub.id == subID then
        let sub' := { sub with cancelAt := some cancelAt }
        if now.after cancelAt then
          { sub' with status := .canceled, canceledAt := some now }
        else sub'
      else sub) }
  else .error .subscriptionNotFound

/-- The guard at src/store/memory/store.go:225 under which `IngestBatch`
runs its duplicate scan: the event carries a non-empty idempotency key. -/
def dedupGuard (e : UsageEvent) : Bool := e.idempotencyKey != ""

/-- Embeds `Store.IngestBatch` (src/store/memory/store.go:219-235).
When `dedupGuard e` holds the code scans the stored events for a
matching idempotency key, but the loop body is `continue`, which only
advances that inner scan loop; the scan therefore has no effect and
every event of the batch is appended unconditionally at line 232. -/
def ingestBatch (s : MemStore) (events : List UsageEvent) : MemStore :=
  { s with usageEvents := events.foldl (fun acc e => acc ++ [e]) s.usageEvents }

/-- Embeds `Store.Aggregate` (src/store/memory/store.go:237-255): sums
the quantities of the events for the key triple whose timestamp is
`After` the start of the period computed from `now`. -/
def aggregate (s : MemStore) (tenantID appID featureKey : String)
    (period : Period) (now : GoTime) : Int :=
  let startOfPeriod := getStartOfPeriod now period
  s.usageEvents.foldl (fun total e =>
    if e.tenantID == tenantID && e.appID == appID &&
        e.featureKey == featureKey && e.timestamp.after startOfPeriod then
      total + e.quantity
    else total) 0

/-- Embeds `Store.GetCached` (src/store/memory/store.go:306-319): a hit
needs an expiry entry that `now` is `Before`, plus a cached result;
anything else is `ErrCacheMiss`, modelled as `none`. -/
def getCached (s : MemStore) (tenantID appID featureKey : String)
    (now : GoTime) : Option EntResult :=
  let key := cacheKey tenantID appID featureKey
  match getAssoc s.cacheExpiry key with
  | some expiry =>
    if now.before expiry then getAssoc s.entitlementCache key else Option.none
  | Option.none => Option.none

/-- Embeds `Store.SetCached` (src/store/memory/store.go:321-329): stores
the result under the cache key with expiry `now + ttl`. -/
def setCached (s : MemStore) (tenantID appID featureKey : String)
    (result : EntResult) (now : GoTime) (ttl : Int) : MemStore :=
  let key := cacheKey tenantID appID featureKey
  { s with
    entitlementCache := setAssoc s.entitlementCache key result,
    cacheExpiry := setAssoc s.cacheExpiry key (now.addNsec ttl) }

/-- Embeds `Store.Invalidate` (src/store/memory/store.go:331-343):
deletes every cache and expiry entry whose key starts with
`tenantID:appID:`. -/
def invalidate (s : MemStore) (tenantID appID : String) : MemStore :=
  let pre := cachePrefix tenantID appID
  { s with
    entitlementCache :=
      s.entitlementCache.filter (fun kv => !(goHasPrefix kv.1 pre)),
    cacheExpiry := s.cacheExpiry.filter (fun kv => !(goHasPrefix kv.1 pre)) }

/-- Embeds `Store.CreateInvoice` (src/store/memory/store.go:356-362):
an unconditional map assignment keyed by the invoice id. -/
def createInvoice (s : MemStore) (inv : Invoice) : MemStore :=
  { s with invoices := setAssoc s.invoices inv.id inv }

end MemStore

/-- A value stored in a Go `context.Context`: a string, or a value of
any other dynamic type. -/
inductive CtxVal where
  | str (s : String)
  | other
deriving DecidableEq, Repr

/-- Embeds the request context: the string-keyed values reachable via
`ctx.Value`. -/
structure Ctx where
  values : List (String × CtxVal) := []
deriving Repr

/-- Embeds `ctx.Value(key)`. -/
def Ctx.value (ctx : Ctx) (key : String) : Option CtxVal :=
  getAssoc ctx.values key

/-- Embeds `extractTenantID` (src/ledger.go:490-499): the string under
`"tenant_id"`, or `""` when the key is absent or the value is not a
string. -/
def extractTenantID (ctx : Ctx) : String :=
  match ctx.value "tenant_id" with
  | some (.str s) => s
  | _ => ""

/-- Embeds `extractAppID` (src/ledger.go:501-510). -/
def extractAppID (ctx : Ctx) : String :=
  match ctx.value "app_id" with
  | some (.str s) => s
  | _ => ""

/-- Embeds `Ledger.Meter` (src/ledger.go:220-244).  The bounded channel
is modelled by its queued contents `buffer` and its capacity `cap`; the
non-blocking `select` send succeeds exactly when the channel holds
fewer than `cap` events.  The generated event id and `time.Now()` are
passed in as `newID` and `now`.  The function consults no store. -/
def meter (buffer : List UsageEvent) (cap : Nat) (ctx : Ctx)
    (featureKey : String) (quantity : Int) (newID : String) (now : GoTime) :
    Except LedgerError (List UsageEvent) :=
  let tenantID := extractTenantID ctx
  let appID := extractAppID ctx
  let event : UsageEvent :=
    { id := newID, tenantID := tenantID, appID := appID,
      featureKey := featureKey, quantity := quantity, timestamp := now }
  if tenantID = "" ∨ appID = "" then
    .error .invalidInput
  else if buffer.length < cap then
    .ok (buffer ++ [event])
  else
    .error .meterBufferFull

/-- An emission into the plugin registry performed by `Entitled`. -/
inductive PluginEvent where
  | quotaExceeded (tenantID featureKey : String) (used limit : Int)
  | entitlementChecked (result : EntResult)
deriving DecidableEq, Repr

/-- Result of an `Entitled` call: the decision, the store after any
cache write, and the plugin events emitted. -/
structure EntOut where
  result : EntResult
  store : MemStore
  events : List PluginEvent

/-- Embeds steps 3-7 of `Ledger.Entitled` (src/ledger.go:321-394):
subscription resolution, plan resolution, feature resolution, and the
boolean/metered decision with cache write and plugin emissions. -/
def computeEntitlement (s : MemStore) (tenantID appID featureKey : String)
    (now : GoTime) (ttl : Int) : EntOut :=
  match s.getActiveSubscription tenantID appID with
  | Option.none =>
    ⟨{ allowed := false, feature := featureKey,
       reason := "no active subscription" }, s, []⟩
  | some sub =>
    match s.getPlan sub.planID with
    | Option.none =>
      ⟨{ allowed := false, feature := featureKey,
         reason := "plan not found" }, s, []⟩
    | some p =>
      match p.findFeature featureKey with
      | Option.none =>
        ⟨{ allowed := false, feature := featureKey,
           reason := "feature not in plan" }, s, []⟩
      | some feature =>
        if feature.ftype = .boolean then
          let result : EntResult :=
            { allowed := decide (0 < feature.limit), feature := featureKey,
              limit := feature.limit }
          ⟨result, s.setCached tenantID appID featureKey result now ttl, []⟩
        else
          let used := s.aggregate tenantID appID featureKey feature.period now
          let base : EntResult :=
            { feature := featureKey, used := used, limit := feature.limit,
              remaining := max 0 (feature.limit - used),
              softLimit := feature.softLimit }
          let decided : EntResult × List PluginEvent :=
            if feature.limit = -1 then
              ({ base with allowed := true, remaining := -1 }, [])
            else if used < feature.limit then
              ({ base with allowed := true }, [])
            else if feature.softLimit then
              ({ base with allowed := true, reason := "over soft limit" }, [])
            else
              ({ base with allowed := false, reason := "quota exceeded" },
               [.quotaExceeded tenantID featureKey used feature.limit])
          ⟨decided.1,
           s.setCached tenantID appID featureKey decided.1 now ttl,
           decided.2 ++ [.entitlementChecked decided.1]⟩

/-- Embeds `Ledger.Entitled` (src/ledger.go:304-395).  With the memory
store the usage aggregation cannot fail, so the Go error return is
always nil and the call always produces a decision. -/
def entitled (s : MemStore) (ctx : Ctx) (featureKey : String)
    (now : GoTime) (ttl : Int) : EntOut :=
  let tenantID := extractTenantID ctx
  let appID := extractAppID ctx
  if tenantID = "" ∨ appID = "" then
    ⟨{ allowed := false, feature := featureKey,
       reason := "missing tenant or app context" }, s, []⟩
  else
    match s.getCached tenantID appID featureKey now with
    | some cached => ⟨cached, s, []⟩
    | Option.none => computeEntitlement s tenantID appID featureKey now ttl

/-- Embeds the field adjustments of `Ledger.CreateSubscription`
(src/ledger.go:163-169): stamp the entity with `now` and default the
period to one month from `now` when unset. -/
def stampSubscription (sub : Subscription) (now : GoTime) : Subscription :=
  let sub₁ := { sub with createdAt := now }
  if sub₁.currentPeriodStart = GoTime.zeroTime then
    { sub₁ with currentPeriodStart := now,
                currentPeriodEnd := now.addMonths 1 }
  else sub₁

/-- Embeds `Ledger.CreateSubscription` (src/ledger.go:159-180): stamps
the entity, persists, and invalidates the entitlement cache for the
subscription's pair.  The id is taken as given
(`id.NewSubscriptionID` only fills a zero id). -/
def createSubscription (s : MemStore) (sub : Subscription) (now : GoTime) :
    Except LedgerError MemStore :=
  match s.createSubscription (stampSubscription sub now) with
  | .error e => .error e
  | .ok s₁ =>
    .ok (s₁.invalidate (stampSubscription sub now).tenantID
      (stampSubscription sub now).appID)

/-- Embeds `Ledger.CancelSubscription` (src/ledger.go:193-213): loads
the subscription, picks `cancelAt`, updates the store, and invalidates
the entitlement cache for the subscription's pair. -/
def cancelSubscription (s : MemStore) (subID : String) (immediately : Bool)
    (now : GoTime) : Except LedgerError MemStore :=
  match s.getSubscription subID with
  | Option.none => .error .subscriptionNotFound
  | some sub =>
    let cancelAt := if immediately then now else sub.currentPeriodEnd
    match s.cancelSubscription subID cancelAt now with
    | .error e => .error e
    | .ok s₁ => .ok (s₁.invalidate sub.tenantID sub.appID)

/-- Outcome of `Ledger.GenerateInvoice`: a returned invoice with the
updated store, a returned error, or a Go panic (raised by `Money.Add`
or `Money.Subtract` on a currency mismatch). -/
inductive GenResult where
  | ok (inv : Invoice) (s : MemStore)
  | err (e : LedgerError)
  | panicked (msg : String)
deriving Repr

/-- Embeds the overage loop of `Ledger.GenerateInvoice`
(src/ledger.go:449-472): for each metered feature whose aggregated
usage exceeds a positive limit, append an `overage` line item with
quantity `used - limit` and zero unit/amount in the plan currency.
The counter numbers the fresh line-item ids. -/
def overageItems (s : MemStore) (sub : Subscription) (p : Plan)
    (now : GoTime) (invID : String) (newLineItemID : Nat → String) :
    List Feature → Nat → List LineItem
  | [], _ => []
  | feature :: rest, n =>
    if feature.ftype = .metered then
      let used := s.aggregate sub.tenantID sub.appID feature.key feature.period now
      if feature.limit < used ∧ 0 < feature.limit then
        { id := newLineItemID n, invoiceID := invID,
          featureKey := feature.key,
          description := feature.name ++ " overage",
          quantity := used - feature.limit,
          unitAmount := Money.zero p.currency,
          amount := Money.zero p.currency,
          itemType := .overage } :: overageItems s sub p now invID newLineItemID rest (n + 1)
      else overageItems s sub p now invID newLineItemID rest n
    else overageItems s sub p now invID newLineItemID rest n

/-- Embeds `Ledger.GenerateInvoice` (src/ledger.go:411-484).  The
invoice literal at lines 422-433 leaves the monetary fields at the Go
zero value of `types.Money` (currency `""`); fresh ids are passed in as
`invID` and `newLineItemID`. -/
def generateInvoice (s : MemStore) (subID : String) (now : GoTime)
    (invID : String) (newLineItemID : Nat → String) : GenResult :=
  match s.getSubscription subID with
  | Option.none => .err .subscriptionNotFound
  | some sub =>
    match s.getPlan sub.planID with
    | Option.none => .err .planNotFound
    | some p =>
      let inv : Invoice :=
        { id := invID, tenantID := sub.tenantID, subscriptionID := sub.id,
          status := .draft, currency := p.currency,
          periodStart := sub.currentPeriodStart,
          periodEnd := sub.currentPeriodEnd, appID := sub.appID }
      let withBase : Option Invoice :=
        match p.pricing with
        | some pricing =>
          if pricing.baseAmount.isPositive then
            match inv.subtotal.add pricing.baseAmount with
            | some subtotal =>
              some { inv with
                lineItems := inv.lineItems ++
                  [{ id := newLineItemID 0, invoiceID := invID,
                     description := "Base subscription fee", quantity := 1,
                     unitAmount := pricing.baseAmount,
                     amount := pricing.baseAmount, itemType := .base }],
                subtotal := subtotal }
            | Option.none => Option.none
          else some inv
        | Option.none => some inv
      match withBase with
      | Option.none => .panicked "money: currency mismatch"
      | some inv₁ =>
        let extra := overageItems s sub p now invID newLineItemID p.features 1
        let inv₂ := { inv₁ with lineItems := inv₁.lineItems ++ extra }
        match inv₂.subtotal.add inv₂.taxAmount with
        | Option.none => .panicked "money: currency mismatch"
        | some t₁ =>
          match t₁.subtract inv₂.discountAmount with
          | Option.none => .panicked "money: currency mismatch"
          | some total =>
            let invF := { inv₂ with total := total }
            .ok invF (s.createInvoice invF)

/-- Abstract outcome of one observer handler invocation, used to model
the registry dispatch of src/unnamed/part_008: the handler returns nil,
returns an error, never completes within the 5-second timeout, or
panics. -/
inductive HandlerOutcome where
  | ok
  | fails (msg : String)
  | hangs
  | panics
deriving DecidableEq, Repr

/-- A registered observer for one event kind: its plugin name and what
its handler does when invoked. -/
structure Observer where
  name : String
  outcome : HandlerOutcome
deriving DecidableEq, Repr

/-- Result of `Registry.callWithTimeout` for one observer: the error
value handed back to the emit loop, or a process crash. -/
inductive CallResult where
  | ret (err : Option String)
  | crashed
deriving DecidableEq, Repr

/-- Embeds `Registry.callWithTimeout` (src/unnamed/part_008:419-436).
The handler runs on a spawned goroutine (`go func() { done <- fn() }`);
a nil or error return is received on `done`, a handler that never
completes makes the `select` take the 5-second `time.After` branch and
return the timeout error.  The goroutine body has no `recover`, so a
panicking handler terminates the whole process, modelled as `crashed`. -/
def callWithTimeout (pluginName : String) (o : HandlerOutcome) : CallResult :=
  match o with
  | .ok => .ret Option.none
  | .fails msg => .ret (some msg)
  | .hangs => .ret (some ("plugin timeout: " ++ pluginName))
  | .panics => .crashed

/-- Observable trace of one emit: the observers invoked, in order, and
the `(plugin, error)` pairs logged.  The Go emit methods return nothing
to their caller, so the trace is the only output. -/
structure EmitTrace where
  invoked : List String
  logs : List (String × String)
deriving DecidableEq, Repr

/-- Embeds the emit loop shared by `EmitPlanCreated` and the other
`Emit*` methods (src/unnamed/part_008:266-282): walk the cached
observer list in registration order, call each handler under
`callWithTimeout`, log a non-nil error, and continue.  A crash of
`callWithTimeout` (unrecovered handler panic) terminates the process:
no trace is produced. -/
def emitPlanCreated : List Observer → Option EmitTrace
  | [] => some ⟨[], []⟩
  | o :: rest =>
    match callWithTimeout o.name o.outcome with
    | .crashed => Option.none
    | .ret Option.none =>
      (emitPlanCreated rest).map (fun tr => ⟨o.name :: tr.invoked, tr.logs⟩)
    | .ret (some msg) =>
      (emitPlanCreated rest).map (fun tr =>
        ⟨o.name :: tr.invoked, (o.name, msg) :: tr.logs⟩)

section Fixtures

/-- A sample evaluation instant: May 10, 2024, midnight. -/
def nowMay : GoTime := ⟨2024, 5, 10, 0⟩

/-- A usage event inside the May 2024 monthly window. -/
def evInWindow : UsageEvent :=
  { id := "uevt_a", tenantID := "t1", appID := "a1", featureKey := "api",
    quantity := 3, timestamp := ⟨2024, 5, 2, 0⟩ }

/-- A usage event timestamped exactly at the start of May 2024. -/
def evBoundary : UsageEvent :=
  { id := "uevt_b", tenantID := "t1", appID := "a1", featureKey := "api",
    quantity := 7, timestamp := ⟨2024, 5, 1, 0⟩ }

/-- A usage event carrying the idempotency key `req-42`, quantity 5. -/
def evReq42 : UsageEvent :=
  { id := "uevt_c", tenantID := "t1", appID := "a1", featureKey := "api",
    quantity := 5, timestamp := ⟨2024, 5, 3, 0⟩, idempotencyKey := "req-42" }

/-- A second submission of the same logical event as `evReq42`: same
idempotency key, fresh event id. -/
def evReq42Again : UsageEvent :=
  { id := "uevt_d", tenantID := "t1", appID := "a1", featureKey := "api",
    quantity := 5, timestamp := ⟨2024, 5, 4, 0⟩, idempotencyKey := "req-42" }

/-- The metered `api` feature of the sample plan: monthly limit 10000,
hard limit. -/
def featApi : Feature :=
  { key := "api", name := "API Calls", ftype := .metered, limit := 10000,
    period := .monthly, softLimit := false }

/-- The `pro` plan of the spec's end-to-end scenario: currency `usd`,
metered feature `api` with a monthly limit of 10000 and a hard limit,
and a base amount of $49.00. -/
def planPro : Plan :=
  { id := "plan_1", slug := "pro", currency := "usd",
    features := [featApi],
    pricing := some { baseAmount := ⟨4900, "usd"⟩, billingPeriod := .monthly },
    appID := "a1" }

/-- An active subscription of tenant `t1` / app `a1` to `planPro`. -/
def subPro : Subscription :=
  { id := "sub_1", tenantID := "t1", planID := "plan_1", appID := "a1",
    status := .active, currentPeriodStart := ⟨2024, 5, 1, 0⟩,
    currentPeriodEnd := ⟨2024, 6, 1, 0⟩, createdAt := ⟨2024, 5, 1, 0⟩ }

/-- A store holding `planPro` and `subPro` and no usage. -/
def storePro : MemStore := { plans := [planPro], subscriptions := [subPro] }

/-- A request context carrying tenant `t1` and app `a1`. -/
def ctxT1A1 : Ctx := { values := [("tenant_id", .str "t1"), ("app_id", .str "a1")] }

end Fixtures

section Theorems

theorem after_eq_decide_spec (t u : GoTime) :
    t.after u = decide (specStrictlyLater u t) := by
  rw [Bool.eq_iff_iff]
  simp [after_iff_specStrictlyLater]

theorem foldl_sum_filter (cond : UsageEvent → Bool) (l : List UsageEvent)
    (init : Int) :
    l.foldl (fun total e => if cond e then total + e.quantity else total) init
      = init + ((l.filter cond).map (fun e => e.quantity)).sum := by
  induction l generalizing init with
  | nil => simp
  | cons hd tl ih =>
    by_cases h : cond hd
    · simp only [List.foldl_cons, List.filter_cons, h, if_true, ite_true]
      rw [ih]
      simp [add_assoc]
    · simp only [List.foldl_cons, List.filter_cons, h, if_false, ite_false,
        Bool.false_eq_true]
      rw [ih]

/-- C4: for every period value (monthly, yearly, none), the usage
aggregate for a key triple is the sum of the quantities of exactly the
events of that triple whose timestamp is strictly later than the start
of the period — the first instant of the current month, of the current
year, or the Go zero time respectively — and appending an event
timestamped exactly at the period-start instant leaves the aggregate
unchanged. -/
theorem c4_aggregate_period_window (s : MemStore) (t a f : String)
    (p : Period) (now : GoTime) :
    (s.aggregate t a f p now =
      ((s.usageEvents.filter (fun e => e.tenantID == t && e.appID == a &&
          e.featureKey == f &&
          decide (specStrictlyLater (getStartOfPeriod now p) e.timestamp))).map
        (fun e => e.quantity)).sum)
    ∧ ∀ e : UsageEvent, e.timestamp = getStartOfPeriod now p →
        MemStore.aggregate { s with usageEvents := s.usageEvents ++ [e] }
            t a f p now
          = s.aggregate t a f p now := by
  constructor
  · show MemStore.aggregate s t a f p now = _
    unfold MemStore.aggregate
    rw [foldl_sum_filter]
    simp only [after_eq_decide_spec, zero_add]
  · intro e he
    show MemStore.aggregate _ t a f p now = MemStore.aggregate s t a f p now
    unfold MemStore.aggregate
    rw [List.foldl_append]
    simp [he, GoTime.after_irrefl]

/-- C4 witness: both parts of `c4_aggregate_period_window` at the
concrete store holding one in-window event, with the boundary event
timestamped exactly at the start of May 2024. -/
theorem c4_aggregate_period_window_witness :
    (MemStore.aggregate { usageEvents := [evInWindow] } "t1" "a1" "api"
        .monthly nowMay =
      ((({ usageEvents := [evInWindow] } : MemStore).usageEvents.filter
          (fun e => e.tenantID == "t1" && e.appID == "a1" &&
            e.featureKey == "api" &&
            decide (specStrictlyLater (getStartOfPeriod nowMay .monthly)
              e.timestamp))).map (fun e => e.quantity)).sum)
    ∧ MemStore.aggregate
        { ({ usageEvents := [evInWindow] } : MemStore) with
          usageEvents :=
            ({ usageEvents := [evInWindow] } : MemStore).usageEvents ++
              [evBoundary] } "t1" "a1" "api" .monthly nowMay
      = MemStore.aggregate { usageEvents := [evInWindow] } "t1" "a1" "api"
          .monthly nowMay :=
  ⟨(c4_aggregate_period_window { usageEvents := [evInWindow] } "t1" "a1" "api"
      .monthly nowMay).1,
   (c4_aggregate_period_window { usageEvents := [evInWindow] } "t1" "a1" "api"
      .monthly nowMay).2 evBoundary rfl⟩

/-- C2: evaluation of the duplicate-ingest bug.  Ingesting `evReq42`
into the empty store yields an aggregate of 5; re-ingesting the same
logical event with the same non-empty idempotency key `req-42` raises
the aggregate to 10, so the re-ingest is not a no-op.  The duplicate
scan of `IngestBatch` (src/store/memory/store.go:224-231) has no
effect because its `continue` only advances the inner scan loop. -/
theorem c2_reingest_same_key_changes_aggregate :
    (MemStore.ingestBatch {} [evReq42]).aggregate "t1" "a1" "api"
        .monthly nowMay = 5
    ∧ ((MemStore.ingestBatch {} [evReq42]).ingestBatch [evReq42Again]).aggregate
        "t1" "a1" "api" .monthly nowMay = 10 :=
  ⟨rfl, rfl⟩

/-- C1: evaluation of the base-fee panic.  `storePro` holds the `pro`
plan (currency `usd`, base amount $49.00 > 0) and the active
subscription `sub_1`; `GenerateInvoice` reaches
`inv.Subtotal = inv.Subtotal.Add(p.Pricing.BaseAmount)`
(src/ledger.go:446) with `inv.Subtotal` still the zero value of
`types.Money` (currency `""`), so `Money.Add` panics on the currency
mismatch instead of returning the draft invoice. -/
theorem c1_generateInvoice_base_fee_panics :
    generateInvoice storePro "sub_1" nowMay "inv_1"
        (fun n => "li_" ++ toString n)
      = .panicked "money: currency mismatch" := rfl

/-- C9: when the request context lacks `tenant_id` or `app_id` (or the
value is not a string), `Entitled` returns the denied decision with
reason `missing tenant or app context`, a nil error (with the memory
store the embedded `entitled` has no error outcome at all), leaves the
store untouched, and its decision is independent of the store, the
time, and the TTL — no store operation is consulted. -/
theorem c9_missing_context_denied (s s' : MemStore) (ctx : Ctx) (f : String)
    (now now' : GoTime) (ttl ttl' : Int)
    (h : extractTenantID ctx = "" ∨ extractAppID ctx = "") :
    entitled s ctx f now ttl =
      ⟨{ allowed := false, feature := f,
         reason := "missing tenant or app context" }, s, []⟩
    ∧ (entitled s ctx f now ttl).result = (entitled s' ctx f now' ttl').result := by
  have h1 : ∀ (s₀ : MemStore) (n : GoTime) (tl : Int),
      entitled s₀ ctx f n tl =
        ⟨{ allowed := false, feature := f,
           reason := "missing tenant or app context" }, s₀, []⟩ := by
    intro s₀ n tl
    unfold entitled
    rw [if_pos h]
  exact ⟨h1 s now ttl, by rw [h1 s now ttl, h1 s' now' ttl']⟩

/-- A request context carrying a non-string `tenant_id` value and a
valid `app_id`. -/
def ctxBadTenant : Ctx :=
  { values := [("tenant_id", .other), ("app_id", .str "a1")] }

/-- C9 witness: `c9_missing_context_denied` at a context whose
`tenant_id` value is not a string, against the empty store and
`storePro`. -/
theorem c9_missing_context_denied_witness :
    (entitled {} ctxBadTenant "api" nowMay 30 =
      ⟨{ allowed := false, feature := "api",
         reason := "missing tenant or app context" }, {}, []⟩)
    ∧ (entitled {} ctxBadTenant "api" nowMay 30).result =
        (entitled storePro ctxBadTenant "api" ⟨2025, 1, 1, 0⟩ 60).result :=
  c9_missing_context_denied {} storePro ctxBadTenant "api" nowMay
    ⟨2025, 1, 1, 0⟩ 30 60 (Or.inl rfl)

/-- C6: `Meter` returns the invalid-input error when the context lacks
tenant or app; with a valid context it returns the buffer-full error
exactly when the bounded channel already holds `cap` events, and
otherwise enqueues the event and returns ok — every call either
enqueues or reports an error, so no event is dropped silently.  The
embedded `meter` takes no store argument: the operation performs no
store I/O and its only shared resource is the buffer. -/
theorem c6_meter_error_contract (buffer : List UsageEvent) (cap : Nat)
    (ctx : Ctx) (f : String) (qty : Int) (newID : String) (now : GoTime) :
    (extractTenantID ctx = "" ∨ extractAppID ctx = "" →
      meter buffer cap ctx f qty newID now = .error .invalidInput)
    ∧ (extractTenantID ctx ≠ "" → extractAppID ctx ≠ "" →
        (cap ≤ buffer.length →
          meter buffer cap ctx f qty newID now = .error .meterBufferFull)
        ∧ (buffer.length < cap →
          meter buffer cap ctx f qty newID now = .ok (buffer ++
            [{ id := newID, tenantID := extractTenantID ctx,
               appID := extractAppID ctx, featureKey := f, quantity := qty,
               timestamp := now }]))) := by
  refine ⟨fun h => ?_, fun ht ha => ⟨fun hfull => ?_, fun hroom => ?_⟩⟩
  · unfold meter
    rw [if_pos h]
  · unfold meter
    rw [if_neg (not_or.mpr ⟨ht, ha⟩), if_neg (by omega)]
  · unfold meter
    rw [if_neg (not_or.mpr ⟨ht, ha⟩), if_pos hroom]

/-- C6 witness: `c6_meter_error_contract` at the valid context with an
empty buffer of capacity 10000 (the default), in the successful-enqueue
case. -/
theorem c6_meter_error_contract_witness :
    meter [] 10000 ctxT1A1 "api" 2 "uevt_w" nowMay = .ok ([] ++
      [{ id := "uevt_w", tenantID := extractTenantID ctxT1A1,
         appID := extractAppID ctxT1A1, featureKey := "api", quantity := 2,
         timestamp := nowMay }]) :=
  ((c6_meter_error_contract [] 10000 ctxT1A1 "api" 2 "uevt_w" nowMay).2
    (by decide) (by decide)).2 (by decide)

/-- C10: every event enqueued by a successful `Meter` call carries an
empty idempotency key — the struct literal at src/ledger.go:229-236
never sets `IdempotencyKey` and `Meter` exposes no parameter for it —
so the guard of the batch-ingest duplicate scan
(src/store/memory/store.go:225) is false for it and ingesting it always
appends it to the store, regardless of the events already present. -/
theorem c10_meter_events_have_empty_idempotency_key
    (buffer : List UsageEvent) (cap : Nat) (ctx : Ctx) (f : String)
    (qty : Int) (newID : String) (now : GoTime) (buf' : List UsageEvent)
    (h : meter buffer cap ctx f qty newID now = .ok buf') :
    ∃ e, buf' = buffer ++ [e] ∧ e.idempotencyKey = ""
      ∧ MemStore.dedupGuard e = false
      ∧ ∀ s : MemStore, (s.ingestBatch [e]).usageEvents = s.usageEvents ++ [e] := by
  unfold meter at h
  by_cases hctx : extractTenantID ctx = "" ∨ extractAppID ctx = ""
  · rw [if_pos hctx] at h
    exact absurd h (by simp)
  · rw [if_neg hctx] at h
    by_cases hroom : buffer.length < cap
    · rw [if_pos hroom] at h
      cases h
      exact ⟨_, rfl, rfl, rfl, fun s => rfl⟩
    · rw [if_neg hroom] at h
      exact absurd h (by simp)

/-- The event enqueued by the witness `Meter` call below. -/
def evMeterW : UsageEvent :=
  { id := "uevt_w", tenantID := "t1", appID := "a1", featureKey := "api",
    quantity := 2, timestamp := nowMay }

/-- C10 witness: `c10_meter_events_have_empty_idempotency_key` at a
concrete successful `Meter` call. -/
theorem c10_meter_events_have_empty_idempotency_key_witness :
    ∃ e, [evMeterW] = [] ++ [e]
      ∧ e.idempotencyKey = ""
      ∧ MemStore.dedupGuard e = false
      ∧ ∀ s : MemStore, (s.ingestBatch [e]).usageEvents = s.usageEvents ++ [e] :=
  c10_meter_events_have_empty_idempotency_key [] 10000 ctxT1A1 "api" 2
    "uevt_w" nowMay _ rfl

theorem entitled_cache_miss (s : MemStore) (ctx : Ctx) (f : String)
    (now : GoTime) (ttl : Int)
    (ht : extractTenantID ctx ≠ "") (ha : extractAppID ctx ≠ "")
    (hc : s.getCached (extractTenantID ctx) (extractAppID ctx) f now =
      Option.none) :
    entitled s ctx f now ttl =
      computeEntitlement s (extractTenantID ctx) (extractAppID ctx) f now ttl := by
  unfold entitled
  rw [if_neg (not_or.mpr ⟨ht, ha⟩), hc]

/-- C3: for a tenant with an active subscription to a plan containing a
metered or seat feature (resolved on a cache miss), the entitled
decision follows the quota rule: unlimited features are allowed with
remaining −1; usage below the limit is allowed; usage at or above a
soft limit is allowed with reason `over soft limit`; otherwise the
decision is denied with reason `quota exceeded` and the quota-exceeded
hook is emitted; in the bounded cases remaining is `max 0 (limit −
used)`. -/
theorem c3_entitled_metered_decision (s : MemStore) (ctx : Ctx)
    (t a f : String) (sub : Subscription) (p : Plan) (feature : Feature)
    (now : GoTime) (ttl : Int)
    (ht : extractTenantID ctx = t) (ht0 : t ≠ "")
    (ha : extractAppID ctx = a) (ha0 : a ≠ "")
    (hc : s.getCached t a f now = Option.none)
    (hsub : s.getActiveSubscription t a = some sub)
    (hp : s.getPlan sub.planID = some p)
    (hf : p.findFeature f = some feature)
    (hm : feature.ftype ≠ .boolean) :
    ((entitled s ctx f now ttl).result.used =
        s.aggregate t a f feature.period now
      ∧ (entitled s ctx f now ttl).result.limit = feature.limit)
    ∧ (feature.limit = -1 →
        (entitled s ctx f now ttl).result.allowed = true
        ∧ (entitled s ctx f now ttl).result.remaining = -1)
    ∧ (feature.limit ≠ -1 → s.aggregate t a f feature.period now < feature.limit →
        (entitled s ctx f now ttl).result.allowed = true
        ∧ (entitled s ctx f now ttl).result.remaining =
            max 0 (feature.limit - s.aggregate t a f feature.period now))
    ∧ (feature.limit ≠ -1 → feature.limit ≤ s.aggregate t a f feature.period now →
        feature.softLimit = true →
        (entitled s ctx f now ttl).result.allowed = true
        ∧ (entitled s ctx f now ttl).result.reason = "over soft limit"
        ∧ (entitled s ctx f now ttl).result.remaining =
            max 0 (feature.limit - s.aggregate t a f feature.period now))
    ∧ (feature.limit ≠ -1 → feature.limit ≤ s.aggregate t a f feature.period now →
        feature.softLimit = false →
        (entitled s ctx f now ttl).result.allowed = false
        ∧ (entitled s ctx f now ttl).result.reason = "quota exceeded"
        ∧ (entitled s ctx f now ttl).result.remaining =
            max 0 (feature.limit - s.aggregate t a f feature.period now)
        ∧ PluginEvent.quotaExceeded t f (s.aggregate t a f feature.period now)
            feature.limit ∈ (entitled s ctx f now ttl).events) := by
  have hent : entitled s ctx f now ttl = computeEntitlement s t a f now ttl := by
    rw [← ht, ← ha] at hc ⊢
    exact entitled_cache_miss s ctx f now ttl (ht ▸ ht0) (ha ▸ ha0) hc
  rw [hent]
  unfold computeEntitlement
  simp only [hsub, hp, hf]
  rw [if_neg hm]
  by_cases hun : feature.limit = -1
  · refine ⟨⟨by simp [hun], by simp [hun]⟩, fun _ => ⟨by simp [hun], by simp [hun]⟩,
      fun hne _ => absurd hun hne, fun hne _ _ => absurd hun hne,
      fun hne _ _ => absurd hun hne⟩
  · by_cases hlt : s.aggregate t a f feature.period now < feature.limit
    · refine ⟨⟨by simp [hun, hlt], by simp [hun, hlt]⟩,
        fun h1 => absurd h1 hun,
        fun _ _ => ⟨by simp [hun, hlt], by simp [hun, hlt]⟩,
        fun _ hge _ => absurd hlt (by omega),
        fun _ hge _ => absurd hlt (by omega)⟩
    · by_cases hsoft : feature.softLimit = true
      · refine ⟨⟨by simp [hun, hlt, hsoft], by simp [hun, hlt, hsoft]⟩,
          fun h1 => absurd h1 hun,
          fun _ h2 => absurd h2 hlt,
          fun _ _ _ => ⟨by simp [hun, hlt, hsoft], by simp [hun, hlt, hsoft],
            by simp [hun, hlt, hsoft]⟩,
          fun _ _ h3 => by rw [hsoft] at h3; exact absurd h3 (by simp)⟩
      · have hsoft' : feature.softLimit = false := by
          cases hx : feature.softLimit
          · rfl
          · exact absurd hx hsoft
        refine ⟨⟨by simp [hun, hlt, hsoft'], by simp [hun, hlt, hsoft']⟩,
          fun h1 => absurd h1 hun,
          fun _ h2 => absurd h2 hlt,
          fun _ _ h3 => by rw [hsoft'] at h3; exact absurd h3 (by simp),
          fun _ _ _ => ⟨by simp [hun, hlt, hsoft'], by simp [hun, hlt, hsoft'],
            by simp [hun, hlt, hsoft'], by simp [hun, hlt, hsoft']⟩⟩

/-- C3 witness: `c3_entitled_metered_decision` at the concrete store
`storePro` (feature `api`, limit 10000, no usage), exercising the
allowed-below-limit case. -/
theorem c3_entitled_metered_decision_witness :
    (((entitled storePro ctxT1A1 "api" nowMay 30).result.used =
        storePro.aggregate "t1" "a1" "api" featApi.period nowMay
      ∧ (entitled storePro ctxT1A1 "api" nowMay 30).result.limit =
          featApi.limit)
    ∧ (featApi.limit = -1 →
        (entitled storePro ctxT1A1 "api" nowMay 30).result.allowed = true
        ∧ (entitled storePro ctxT1A1 "api" nowMay 30).result.remaining = -1)
    ∧ (featApi.limit ≠ -1 →
        storePro.aggregate "t1" "a1" "api" featApi.period nowMay < featApi.limit →
        (entitled storePro ctxT1A1 "api" nowMay 30).result.allowed = true
        ∧ (entitled storePro ctxT1A1 "api" nowMay 30).result.remaining =
            max 0 (featApi.limit -
              storePro.aggregate "t1" "a1" "api" featApi.period nowMay))
    ∧ (featApi.limit ≠ -1 →
        featApi.limit ≤ storePro.aggregate "t1" "a1" "api" featApi.period nowMay →
        featApi.softLimit = true →
        (entitled storePro ctxT1A1 "api" nowMay 30).result.allowed = true
        ∧ (entitled storePro ctxT1A1 "api" nowMay 30).result.reason =
            "over soft limit"
        ∧ (entitled storePro ctxT1A1 "api" nowMay 30).result.remaining =
            max 0 (featApi.limit -
              storePro.aggregate "t1" "a1" "api" featApi.period nowMay))
    ∧ (featApi.limit ≠ -1 →
        featApi.limit ≤ storePro.aggregate "t1" "a1" "api" featApi.period nowMay →
        featApi.softLimit = false →
        (entitled storePro ctxT1A1 "api" nowMay 30).result.allowed = false
        ∧ (entitled storePro ctxT1A1 "api" nowMay 30).result.reason =
            "quota exceeded"
        ∧ (entitled storePro ctxT1A1 "api" nowMay 30).result.remaining =
            max 0 (featApi.limit -
              storePro.aggregate "t1" "a1" "api" featApi.period nowMay)
        ∧ PluginEvent.quotaExceeded "t1" "api"
            (storePro.aggregate "t1" "a1" "api" featApi.period nowMay)
            featApi.limit ∈ (entitled storePro ctxT1A1 "api" nowMay 30).events)) :=
  c3_entitled_metered_decision storePro ctxT1A1 "t1" "a1" "api" subPro planPro
    featApi nowMay 30 rfl (by decide) rfl (by decide) rfl rfl rfl rfl (by decide)

theorem goHasPrefix_append (pre suf : String) :
    goHasPrefix (pre ++ suf) pre = true := by
  have hdata : (pre ++ suf).data = pre.data ++ suf.data := rfl
  unfold goHasPrefix
  rw [hdata]
  simp [List.take_left]

theorem getAssoc_filter_keyfun {α : Type} (l : List (String × α))
    (q : String → Bool) (k : String) (hk : q k = false) :
    getAssoc (l.filter (fun kv => q kv.1)) k = Option.none := by
  induction l with
  | nil => rfl
  | cons hd tl ih =>
    by_cases hq : q hd.1 = true
    · have hne : (hd.1 == k) = false := by
        by_cases he : hd.1 = k
        · rw [he] at hq; rw [hq] at hk; exact absurd hk (by simp)
        · simp [he]
      simp only [List.filter_cons, hq, if_true, getAssoc, List.find?, hne]
      exact ih
    · simp only [List.filter_cons, hq, Bool.false_eq_true, if_false]
      exact ih

theorem getCached_invalidate (s : MemStore) (t a f : String) (now : GoTime) :
    (s.invalidate t a).getCached t a f now = Option.none := by
  have hkey : cacheKey t a f = cachePrefix t a ++ f := rfl
  have hq : (fun key => !goHasPrefix key (cachePrefix t a)) (cacheKey t a f)
      = false := by
    simp only [hkey, goHasPrefix_append, Bool.not_true]
  unfold MemStore.invalidate MemStore.getCached
  simp only []
  rw [show (fun kv : String × GoTime => !goHasPrefix kv.1 (cachePrefix t a))
      = (fun kv : String × GoTime =>
          (fun key => !goHasPrefix key (cachePrefix t a)) kv.1) from rfl]
  rw [getAssoc_filter_keyfun s.cacheExpiry
    (fun key => !goHasPrefix key (cachePrefix t a)) (cacheKey t a f) hq]

/-- C5: after a successful engine `CreateSubscription` or
`CancelSubscription` for a `(tenant, app)` pair, every entitlement
cache entry for that pair is gone — `GetCached` misses for every
feature at every time — and an `Entitled` call for the pair on the
resulting store computes its decision from the store state
(`computeEntitlement`), not from a cached decision. -/
theorem c5_subscription_writes_invalidate_cache (s : MemStore) (now : GoTime) :
    (∀ sub s', createSubscription s sub now = .ok s' →
       ∀ f now', s'.getCached sub.tenantID sub.appID f now' = Option.none)
    ∧ (∀ subID immediately sub s', s.getSubscription subID = some sub →
       cancelSubscription s subID immediately now = .ok s' →
       ∀ f now', s'.getCached sub.tenantID sub.appID f now' = Option.none)
    ∧ (∀ (s₀ : MemStore) (ctx : Ctx) (f : String) (now' : GoTime) (ttl : Int),
        extractTenantID ctx ≠ "" → extractAppID ctx ≠ "" →
        s₀.getCached (extractTenantID ctx) (extractAppID ctx) f now' =
          Option.none →
        entitled s₀ ctx f now' ttl =
          computeEntitlement s₀ (extractTenantID ctx) (extractAppID ctx) f
            now' ttl) := by
  refine ⟨?_, ?_, fun s₀ ctx f now' ttl ht ha hc =>
    entitled_cache_miss s₀ ctx f now' ttl ht ha hc⟩
  · intro sub s' h f now'
    unfold createSubscription at h
    have htid : (stampSubscription sub now).tenantID = sub.tenantID := by
      dsimp only [stampSubscription]; split <;> rfl
    have haid : (stampSubscription sub now).appID = sub.appID := by
      dsimp only [stampSubscription]; split <;> rfl
    cases hcr : s.createSubscription (stampSubscription sub now) with
    | error e => rw [hcr] at h; exact absurd h (by simp)
    | ok s₁ =>
      rw [hcr] at h
      have hs' : s' = s₁.invalidate (stampSubscription sub now).tenantID
          (stampSubscription sub now).appID := by
        cases h; rfl
      rw [hs', htid, haid]
      exact getCached_invalidate s₁ sub.tenantID sub.appID f now'
  · intro subID immediately sub s' hget h f now'
    unfold cancelSubscription at h
    simp only [hget] at h
    cases hcn : s.cancelSubscription subID
        (if immediately then now else sub.currentPeriodEnd) now with
    | error e => rw [hcn] at h; exact absurd h (by simp)
    | ok s₁ =>
      rw [hcn] at h
      have hs' : s' = s₁.invalidate sub.tenantID sub.appID := by
        cases h; rfl
      rw [hs']
      exact getCached_invalidate s₁ sub.tenantID sub.appID f now'

/-- A decision sitting in the entitlement cache before the writes of
the C5 witness. -/
def cachedResult : EntResult :=
  { allowed := true, feature := "api", used := 0, limit := 10000,
    remaining := 10000 }

/-- A store holding `planPro` and a live cache entry for
`(t1, a1, api)` that expires far in the future, but no subscription
yet: the pre-state of the create path of the C5 witness. -/
def storeCached : MemStore :=
  { plans := [planPro],
    entitlementCache := [(cacheKey "t1" "a1" "api", cachedResult)],
    cacheExpiry := [(cacheKey "t1" "a1" "api", ⟨2099, 1, 1, 0⟩)] }

/-- The same store with the subscription `subPro` also present: the
pre-state of the cancel path of the C5 witness. -/
def storeCachedWithSub : MemStore :=
  { plans := [planPro], subscriptions := [subPro],
    entitlementCache := [(cacheKey "t1" "a1" "api", cachedResult)],
    cacheExpiry := [(cacheKey "t1" "a1" "api", ⟨2099, 1, 1, 0⟩)] }

/-- What `createSubscription storeCached subPro nowMay` returns: the
subscription stamped with `createdAt = nowMay` is inserted and the
invalidation empties both cache maps. -/
def storeAfterCreate : MemStore :=
  { plans := [planPro],
    subscriptions := [{ subPro with createdAt := nowMay }] }

/-- What `cancelSubscription storeCachedWithSub "sub_1" true nowMay`
returns: the subscription gets `cancelAt = nowMay` (its status is
untouched because `nowMay.after nowMay` is false) and the invalidation
empties both cache maps. -/
def storeAfterCancel : MemStore :=
  { plans := [planPro],
    subscriptions := [{ subPro with cancelAt := some nowMay }] }

/-- C5 witness: both write paths of
`c5_subscription_writes_invalidate_cache` exercised at concrete
stores whose cache holds a live entry for `(t1, a1, api)` before the
write.  The entry is returned by `GetCached` before the write (first
and third conjuncts), the create and cancel calls evaluate to the named
post-states (antecedents discharged by `rfl`), every `GetCached` for
the pair misses afterwards, and the follow-up `Entitled` call on the
post-create store goes to `computeEntitlement`. -/
theorem c5_subscription_writes_invalidate_cache_witness :
    (storeCached.getCached "t1" "a1" "api" nowMay = some cachedResult)
    ∧ (∀ f now', storeAfterCreate.getCached "t1" "a1" f now' = Option.none)
    ∧ (storeCachedWithSub.getCached "t1" "a1" "api" nowMay = some cachedResult)
    ∧ (∀ f now', storeAfterCancel.getCached "t1" "a1" f now' = Option.none)
    ∧ entitled storeAfterCreate ctxT1A1 "api" nowMay 30 =
        computeEntitlement storeAfterCreate "t1" "a1" "api" nowMay 30 :=
  ⟨rfl,
   fun f now' => (c5_subscription_writes_invalidate_cache storeCached
     nowMay).1 subPro storeAfterCreate rfl f now',
   rfl,
   fun f now' => (c5_subscription_writes_invalidate_cache storeCachedWithSub
     nowMay).2.1 "sub_1" true subPro storeAfterCancel rfl rfl f now',
   (c5_subscription_writes_invalidate_cache storeAfterCreate nowMay).2.2
     storeAfterCreate ctxT1A1 "api" nowMay 30 (by decide) (by decide) rfl⟩

/-- An active subscription for `(t1, a1)` created January 1, 2024. -/
def subOlder : Subscription :=
  { id := "sub_old", tenantID := "t1", planID := "plan_1", appID := "a1",
    status := .active, currentPeriodStart := ⟨2024, 1, 1, 0⟩,
    currentPeriodEnd := ⟨2024, 2, 1, 0⟩, createdAt := ⟨2024, 1, 1, 0⟩ }

/-- An active subscription for `(t1, a1)` created June 1, 2024 — more
recently than `subOlder`. -/
def subNewer : Subscription :=
  { id := "sub_new", tenantID := "t1", planID := "plan_1", appID := "a1",
    status := .active, currentPeriodStart := ⟨2024, 6, 1, 0⟩,
    currentPeriodEnd := ⟨2024, 7, 1, 0⟩, createdAt := ⟨2024, 6, 1, 0⟩ }

/-- A store whose subscription map holds both subscriptions, in an
iteration order (permitted for a Go map) that visits `subOlder`
first. -/
def storeTwoSubs : MemStore := { subscriptions := [subOlder, subNewer] }

/-- C7: evaluation of the memory store's active-subscription lookup at
a store holding two active subscriptions for `(t1, a1)`.  The lookup
returns the first match in map-iteration order — here `subOlder` —
even though `subNewer` also matches and was created strictly later, so
the lookup does not return the newest matching subscription (the SQL
and document backends order by `created_at DESC`; the memory store
does not).  On a store with no matching subscription the lookup fails
and `Entitled` returns the denied `no active subscription` decision
with the store unchanged — nothing is cached — and no events. -/
theorem c7_memory_store_returns_non_newest :
    (storeTwoSubs.getActiveSubscription "t1" "a1" = some subOlder
      ∧ subNewer ∈ storeTwoSubs.subscriptions
      ∧ subNewer.tenantID = "t1" ∧ subNewer.appID = "a1"
      ∧ subNewer.status = .active
      ∧ subOlder.createdAt.before subNewer.createdAt = true
      ∧ subOlder ≠ subNewer)
    ∧ (MemStore.getActiveSubscription {} "t1" "a1" = Option.none
      ∧ entitled {} ctxT1A1 "api" nowMay 30 =
          ⟨{ allowed := false, feature := "api",
             reason := "no active subscription" }, {}, []⟩) :=
  ⟨⟨rfl, by decide, rfl, rfl, rfl, rfl, by decide⟩, ⟨rfl, rfl⟩⟩

/-- C8 counterexample: a panicking observer followed by a healthy one.
The handler panic propagates out of the goroutine spawned by
`callWithTimeout`, which has no `recover`, so the process crashes: the
emission produces no trace at all, the subsequent observer is never
invoked, and the failure is as visible to the caller as a failure can
be.  This refutes the claim that a panic in one observer's handler is
logged and does not prevent the subsequent observers from running. -/
theorem c8_panic_crashes_dispatch :
    emitPlanCreated [⟨"boom", .panics⟩, ⟨"after", .ok⟩] = Option.none := rfl

/-- C8 (amended): for every observer list in which no handler panics, a
returned error or a timeout in one observer's handler is logged and
does not prevent the subsequent observers (in registration order) from
being invoked; the emission's only output is its trace, so no failure
surfaces to the engine operation that triggered the event. -/
theorem c8_error_timeout_isolated (obs : List Observer)
    (h : ∀ o ∈ obs, o.outcome ≠ .panics) :
    ∃ tr, emitPlanCreated obs = some tr
      ∧ tr.invoked = obs.map (fun o => o.name)
      ∧ ∀ o ∈ obs, o.outcome ≠ .ok → ∃ msg, (o.name, msg) ∈ tr.logs := by
  induction obs with
  | nil => exact ⟨⟨[], []⟩, rfl, rfl, by simp⟩
  | cons hd tl ih =>
    obtain ⟨tr, htr, hinv, hlog⟩ :=
      ih (fun o ho => h o (List.mem_cons_of_mem hd ho))
    cases hout : hd.outcome with
    | ok =>
      refine ⟨⟨hd.name :: tr.invoked, tr.logs⟩, ?_, ?_, ?_⟩
      · simp [emitPlanCreated, callWithTimeout, hout, htr]
      · simp [hinv]
      · intro o ho hne
        rcases List.mem_cons.mp ho with he | ht
        · rw [he] at hne; exact absurd hout hne
        · exact hlog o ht hne
    | fails msg =>
      refine ⟨⟨hd.name :: tr.invoked, (hd.name, msg) :: tr.logs⟩, ?_, ?_, ?_⟩
      · simp [emitPlanCreated, callWithTimeout, hout, htr]
      · simp [hinv]
      · intro o ho hne
        rcases List.mem_cons.mp ho with he | ht
        · exact ⟨msg, by rw [he]; exact List.mem_cons_self _ _⟩
        · obtain ⟨m, hm⟩ := hlog o ht hne
          exact ⟨m, List.mem_cons_of_mem _ hm⟩
    | hangs =>
      refine ⟨⟨hd.name :: tr.invoked,
        (hd.name, "plugin timeout: " ++ hd.name) :: tr.logs⟩, ?_, ?_, ?_⟩
      · simp [emitPlanCreated, callWithTimeout, hout, htr]
      · simp [hinv]
      · intro o ho hne
        rcases List.mem_cons.mp ho with he | ht
        · exact ⟨"plugin timeout: " ++ hd.name, by
            rw [he]; exact List.mem_cons_self _ _⟩
        · obtain ⟨m, hm⟩ := hlog o ht hne
          exact ⟨m, List.mem_cons_of_mem _ hm⟩
    | panics => exact absurd hout (h hd (List.mem_cons_self hd tl))

/-- The observer list of the C8 witness: one erroring handler, one
hanging handler, one healthy handler. -/
def obsW : List Observer := [⟨"erring", .fails "bad"⟩, ⟨"slow", .hangs⟩,
  ⟨"fine", .ok⟩]

/-- C8 witness: `c8_error_timeout_isolated` at a concrete observer list
with an error, a timeout, and a success. -/
theorem c8_error_timeout_isolated_witness :
    ∃ tr, emitPlanCreated obsW = some tr
      ∧ tr.invoked = obsW.map (fun o => o.name)
      ∧ ∀ o ∈ obsW, o.outcome ≠ .ok → ∃ msg, (o.name, msg) ∈ tr.logs :=
  c8_error_timeout_isolated obsW (by decide)

end Theorems

end LedgerSpec
